import Mathlib

/-!
Shallow embedding of the bato.to Rulia plugin (src/index.ts).

The plugin has four public operations (manga list, search, manga detail,
chapter image list) that fetch raw content through the host, parse it with
jQuery, apply fixed selector extraction rules and signal the host with
exactly one result or exception call.  External collaborators (network,
the jQuery HTML parser, JSON.parse) are modelled as an environment of
opaque functions; the extraction rules, URL construction, integer parsing
and the host-call traces are embedded faithfully from the source.
-/

namespace Bato

/-- A simple CSS selector as used by the plugin: by id (`#x`), by class
(`.x`), or by tag name. -/
inductive Sel where
  | id (s : String)
  | cls (s : String)
  | tag (s : String)
deriving DecidableEq, Repr

/-- A DOM node: an element with tag name, attribute list and children, or a
text node. -/
inductive Node where
  | elem (tag : String) (attrs : List (String × String)) (children : List Node)
  | text (s : String)

/-- Attribute lookup on a node, jQuery `.attr` on a single node: absent
attributes (and text nodes) give `none`. -/
def Node.attrOf : Node → String → Option String
  | .elem _ attrs _, name => attrs.lookup name
  | .text _, _ => none

/-- Split a character list on blanks, accumulating the current piece in
reverse. -/
def splitBlanks : List Char → List Char → List String
  | [], cur => [String.mk cur.reverse]
  | c :: cs, cur =>
      if c = ' ' then String.mk cur.reverse :: splitBlanks cs []
      else splitBlanks cs (c :: cur)

/-- The class names of a node, from its `class` attribute split on blanks. -/
def Node.classList : Node → List String
  | .elem _ attrs _ =>
      (splitBlanks ((attrs.lookup "class").getD "").data []).filter (fun s => s != "")
  | .text _ => []

/-- Whether a node matches a simple selector. -/
def Node.matchesSel : Node → Sel → Bool
  | .elem t _ _, .tag s => t == s
  | n, .id s => n.attrOf "id" == some s
  | n, .cls s => n.classList.contains s
  | .text _, .tag _ => false

mutual

/-- All proper descendants of a node, in document (pre)order. -/
def Node.descendants : Node → List Node
  | .text _ => []
  | .elem _ _ cs => descendantsList cs

/-- All members of a node list together with their proper descendants, in
document order. -/
def descendantsList : List Node → List Node
  | [] => []
  | n :: ns => n :: Node.descendants n ++ descendantsList ns

end

mutual

/-- The text content of a node (concatenation of all text nodes below it). -/
def Node.textContent : Node → String
  | .text s => s
  | .elem _ _ cs => textContentList cs

/-- The concatenated text content of a node list. -/
def textContentList : List Node → String
  | [] => ""
  | n :: ns => n.textContent ++ textContentList ns

end

/-- jQuery `find` for one simple selector: all descendants of the nodes of
the set that match the selector, in document order. -/
def findSel (s : Sel) (ns : List Node) : List Node :=
  (descendantsList ns).filter (fun n => n.matchesSel s)

/-- jQuery `find` for a descendant chain such as `.item-cover img`:
narrow the set by each simple selector in turn. -/
def findChain (sels : List Sel) (ns : List Node) : List Node :=
  sels.foldl (fun acc s => findSel s acc) ns

/-- jQuery `.children(sel)`: the direct element children of each node of the
set that match the selector, in document order. -/
def childrenSel (s : Sel) (ns : List Node) : List Node :=
  ns.flatMap (fun n =>
    match n with
    | .elem _ _ cs => cs.filter (fun c => c.matchesSel s)
    | .text _ => [])

/-- jQuery `.text()` on a set: the concatenated text content of its nodes. -/
def setText (ns : List Node) : String :=
  ns.foldl (fun acc n => acc ++ n.textContent) ""

/-- jQuery `.attr(name)` on a set: the attribute of the first node, absent
when the set is empty. -/
def setAttr (name : String) (ns : List Node) : Option String :=
  match ns with
  | [] => none
  | n :: _ => n.attrOf name

/-- One entry of the manga list result. -/
structure MangaSummary where
  title : String
  url : String
  coverUrl : String
deriving DecidableEq, Repr

/-- The result shape of the list and search operations. -/
structure IGetMangaListResult where
  list : List MangaSummary
deriving DecidableEq, Repr

/-- One chapter reference of the detail result. -/
structure ChapterRef where
  title : String
  url : String
deriving DecidableEq, Repr

/-- The result shape of the detail operation. -/
structure IGetMangaDataResult where
  title : String
  description : String
  coverUrl : String
  chapterList : List ChapterRef
deriving DecidableEq, Repr

/-- One entry of the chapter image list result. -/
structure IRuliaChapterImage where
  url : String
  width : Nat
  height : Nat
deriving DecidableEq, Repr

/-- The `res` field of the pagination envelope. -/
structure EnvelopeRes where
  html : String
  more : Bool
deriving DecidableEq, Repr

/-- The JSON envelope returned by the listing endpoint for pages after the
first. -/
structure PaginatedFetchEnvelope where
  eno : Int
  err : Option String
  res : EnvelopeRes
deriving DecidableEq, Repr

/-- The fixed site origin prefixed to relative hrefs. -/
def origin : String := "https://mto.to"

/-- The shared absolute-URL rewrite of the source, a JavaScript conditional
on the truthiness of the attribute value: `attr ? origin + attr : empty`.
Both an absent attribute and an empty string are falsy. -/
def absUrl (href : Option String) : String :=
  match href with
  | some h => if h = "" then "" else origin ++ h
  | none => ""

/-- The per-item extraction of the list-item rule (body of the `each` loop
over `#series-list` children in `getMangaList` and
`handleMangaListSearch`). -/
def extractListItem (el : Node) : MangaSummary :=
  let a := findChain [Sel.cls "item-title"] [el]
  let cover := findChain [Sel.cls "item-cover", Sel.tag "img"] [el]
  { title := setText a
    url := absUrl (setAttr "href" a)
    coverUrl := (setAttr "src" cover).getD "" }

/-- The matched item nodes of the list-item rule:
`#series-list` container, direct children with class `item`. -/
def seriesItems (doc : List Node) : List Node :=
  childrenSel (Sel.cls "item") (findChain [Sel.id "series-list"] doc)

/-- The list-item rule over a parsed document. -/
def extractMangaList (doc : List Node) : IGetMangaListResult :=
  { list := (seriesItems doc).map extractListItem }

/-- The per-chapter extraction of the detail rule (body of the `each` loop
over `.episode-list .main` children in `getMangaData`). -/
def extractChapterRef (el : Node) : ChapterRef :=
  let a := findChain [Sel.cls "chapt"] [el]
  { title := setText a
    url := absUrl (setAttr "href" a) }

/-- The detail rule over a parsed document (`getMangaData` extraction). -/
def extractMangaDetail (doc : List Node) : IGetMangaDataResult :=
  { title := setText (findChain [Sel.cls "item-title"] doc)
    description :=
      setText (findChain [Sel.id "limit-height-body-summary", Sel.cls "limit-html"] doc)
    coverUrl :=
      (setAttr "src" (childrenSel (Sel.tag "img") (findChain [Sel.cls "attr-cover"] doc))).getD ""
    chapterList :=
      (childrenSel (Sel.cls "item") (findChain [Sel.cls "episode-list", Sel.cls "main"] doc)).map
        extractChapterRef }

/-! ### Integer parsing (`parseIntSafe` and the JavaScript `parseInt`) -/

/-- Whether a character counts as leading whitespace for `parseInt`. -/
def isJsSpace (c : Char) : Bool :=
  c == ' ' || c == Char.ofNat 9 || c == Char.ofNat 10 || c == Char.ofNat 13 ||
    c == Char.ofNat 11 || c == Char.ofNat 12

/-- The value of a hexadecimal digit character. -/
def hexVal (c : Char) : Option Nat :=
  if c.isDigit then some (c.toNat - 48)
  else if 'a' ≤ c ∧ c ≤ 'f' then some (c.toNat - 87)
  else if 'A' ≤ c ∧ c ≤ 'F' then some (c.toNat - 55)
  else none

/-- The value of a digit character in the given base, `none` when the
character is no digit of that base. -/
def digVal (base : Nat) (c : Char) : Option Nat :=
  (hexVal c).bind (fun v => if v < base then some v else none)

/-- The value of the longest digit prefix of a character list in the given
base; `none` when there is no leading digit, as `parseInt` gives `NaN`. -/
def parseDigits (base : Nat) (cs : List Char) : Option Nat :=
  let ds := cs.takeWhile (fun c => (digVal base c).isSome)
  if ds = [] then none
  else some (ds.foldl (fun acc c => acc * base + (digVal base c).getD 0) 0)

/-- The JavaScript `parseInt(value)` on exact integers: skip leading
whitespace, read an optional sign, then either a `0x`/`0X` hexadecimal
prefix with hexadecimal digits or decimal digits; `none` models `NaN`. -/
def jsParseInt (s : String) : Option Int :=
  let cs := s.data.dropWhile isJsSpace
  let signed : Int × List Char :=
    match cs with
    | c :: rest =>
        if c = '-' then (-1, rest)
        else if c = '+' then (1, rest) else (1, cs)
    | [] => (1, [])
  let body : Option Nat :=
    match signed.2 with
    | c0 :: c1 :: rest =>
        if c0 = '0' ∧ (c1 = 'x' ∨ c1 = 'X') then parseDigits 16 rest
        else parseDigits 10 signed.2
    | _ => parseDigits 10 signed.2
  body.map (fun n => signed.1 * (n : Int))

/-- The helper `parseIntSafe` of the source: `parseInt` with a fallback on
`NaN`. -/
def parseIntSafe (value : String) (fallback : Int := 0) : Int :=
  match jsParseInt value with
  | some n => n
  | none => fallback

/-! ### URL encoding (the JavaScript `encodeURIComponent`) -/

/-- Characters that `encodeURIComponent` leaves unescaped. -/
def isUnreservedURI (c : Char) : Bool :=
  c.isAlpha || c.isDigit ||
    [ '-', '_', '.', '!', '~', '*', Char.ofNat 39, '(', ')' ].contains c

/-- The uppercase hexadecimal digit of a value below 16. -/
def hexDigitUpper (n : Nat) : Char :=
  if n < 10 then Char.ofNat (48 + n) else Char.ofNat (55 + n)

/-- Percent-encoding of one character as the UTF-8 bytes it stands for. -/
def percentEncodeChar (c : Char) : List Char :=
  ((String.singleton c).toUTF8.data.toList).flatMap (fun b =>
    [ '%', hexDigitUpper (b.toNat / 16), hexDigitUpper (b.toNat % 16) ])

/-- The JavaScript `encodeURIComponent`. -/
def encodeURIComponent (s : String) : String :=
  String.mk (s.data.flatMap (fun c =>
    if isUnreservedURI c then [c] else percentEncodeChar c))

/-! ### Script-constant extraction

The source recovers the `imgHttps` array by evaluating the selected inline
script with `new Function`.  The JavaScript engine behind `new Function` is
not part of this repository; following the specification it is modelled as
a sandboxed, side-effect-free evaluator restricted to `const` declarations
of string-array literals, whose run yields the bindings the script
defines. -/

/-- The single-quote character of the array literals. -/
def quoteChar : Char := Char.ofNat 39

/-- Drop leading whitespace characters. -/
def skipWs (cs : List Char) : List Char :=
  cs.dropWhile (fun c => c.isWhitespace)

/-- Whether a character may start a JavaScript identifier. -/
def identStart (c : Char) : Bool := c.isAlpha || c == '_' || c == '$'

/-- Whether a character may continue a JavaScript identifier. -/
def identChar (c : Char) : Bool := c.isAlphanum || c == '_' || c == '$'

/-- Read an identifier from the head of the input. -/
def takeIdent : List Char → Option (String × List Char)
  | c :: cs =>
      if identStart c then
        let p := cs.span identChar
        some (String.mk (c :: p.1), p.2)
      else none
  | [] => none

/-- Read a single-quoted string literal from the head of the input. -/
def takeStrLit : List Char → Option (String × List Char)
  | c :: cs =>
      if c = quoteChar then
        match cs.span (fun d => d != quoteChar) with
        | (body, _ :: rest) => some (String.mk body, rest)
        | (_, []) => none
      else none
  | [] => none

/-- Read the comma-separated elements of a nonempty array literal up to and
including the closing bracket. -/
def takeElems : Nat → List Char → Option (List String × List Char)
  | 0, _ => none
  | fuel + 1, cs =>
      match takeStrLit (skipWs cs) with
      | none => none
      | some (s, cs1) =>
          match skipWs cs1 with
          | c :: cs2 =>
              if c = ',' then
                match takeElems fuel cs2 with
                | some (ss, cs3) => some (s :: ss, cs3)
                | none => none
              else if c = ']' then some ([s], cs2)
              else none
          | [] => none

/-- Read an array literal of string literals from the head of the input. -/
def takeArrayLit (cs : List Char) : Option (List String × List Char) :=
  match skipWs cs with
  | c :: cs1 =>
      if c = '[' then
        let cs2 := skipWs cs1
        match cs2 with
        | d :: cs3 => if d = ']' then some ([], cs3) else takeElems cs2.length cs2
        | [] => none
      else none
  | [] => none

/-- Read one statement `const name = [...];` and give its binding. -/
def takeStmt (cs : List Char) : Option ((String × List String) × List Char) :=
  match takeIdent (skipWs cs) with
  | none => none
  | some (kw, cs1) =>
      if kw = "const" then
        match takeIdent (skipWs cs1) with
        | none => none
        | some (name, cs2) =>
            match skipWs cs2 with
            | c :: cs3 =>
                if c = '=' then
                  match takeArrayLit cs3 with
                  | none => none
                  | some (v, cs4) =>
                      match skipWs cs4 with
                      | d :: cs5 => if d = ';' then some ((name, v), cs5) else none
                      | [] => none
                else none
            | [] => none
      else none

/-- Read a sequence of statements up to the end of the input, collecting
the bindings in order. -/
def takeStmts (fuel : Nat) (cs : List Char) : Option (List (String × List String)) :=
  if skipWs cs = [] then some [] else
  match fuel with
  | 0 => none
  | f + 1 =>
      match takeStmt cs with
      | none => none
      | some (b, rest) => (takeStmts f rest).map (fun bs => b :: bs)

/-- Modelled from the spec: the sandboxed evaluation of inline script text
(the `new Function` engine is outside this repository).  A successful run
yields the environment of `const` bindings the script defines; `none` is
an evaluation failure (the script text does not evaluate). -/
def evalScript (scriptText : String) : Option (List (String × List String)) :=
  takeStmts (scriptText.length + 1) scriptText.data

/-- The failure kinds of script-constant extraction. -/
inductive ScriptError where
  | scriptConstantNotFound
  | scriptEvaluationError
deriving DecidableEq, Repr

/-- The user-visible message of a script-constant extraction failure. -/
def ScriptError.message : ScriptError → String
  | .scriptConstantNotFound => "ScriptConstantNotFound"
  | .scriptEvaluationError => "ScriptEvaluationError"

/-- Modelled from the spec: `extractScriptConstant` evaluates the script
text and returns the value bound to the requested name, failing with
`scriptEvaluationError` when the script does not evaluate and with
`scriptConstantNotFound` when the run never defines the name. -/
def extractScriptConstant (scriptText : String) (constantName : String) :
    Except ScriptError (List String) :=
  match evalScript scriptText with
  | none => .error .scriptEvaluationError
  | some env =>
      match env.lookup constantName with
      | some v => .ok v
      | none => .error .scriptConstantNotFound

/-! ### Script selection and the image list -/

/-- The source texts of all inline script elements of a document, in
document order (`find` with selector `script`, `.text()` per element). -/
def scriptTexts (doc : List Node) : List String :=
  (findSel (Sel.tag "script") doc).map Node.textContent

/-- The script-selection loop of `getChapterImageList`: starting from the
empty string, replace the accumulator by the current text whenever the
current text is at least as long. -/
def selectLongestScript (texts : List String) : String :=
  texts.foldl (fun acc t => if acc.length ≤ t.length then t else acc) ""

/-- The script text `getChapterImageList` selects from a document. -/
def selectScript (doc : List Node) : String :=
  selectLongestScript (scriptTexts doc)

/-- The mapping of the recovered URL strings to chapter image records with
placeholder dimensions. -/
def chapterImagesOf (imgHttps : List String) : List IRuliaChapterImage :=
  imgHttps.map (fun url => { url := url, width := 1, height := 1 })

/-! ### Dispatchers and host signaling -/

/-- The external collaborators of the dispatchers: the network fetch
(which may fail with a transport error), the jQuery HTML parsing of a raw
body into a node list, and the JSON decoding of the pagination envelope
(JSON.parse plus the envelope field accesses, which may fail). -/
structure JsEnv where
  httpRequest : String → Except String String
  parseHTML : String → List Node
  jsonDecode : String → Except String PaginatedFetchEnvelope

/-- One call to the host: a toast, the result channel, or the exception
channel. -/
inductive HostCall (α : Type) where
  | appToast (msg : String)
  | endWithResult (value : α)
  | endWithException (msg : String)
deriving DecidableEq, Repr

/-- Whether a host call uses one of the two terminal channels. -/
def HostCall.isEndCall : HostCall α → Bool
  | .appToast _ => false
  | .endWithResult _ => true
  | .endWithException _ => true

/-- The URL of the search sub-pipeline. -/
def searchUrl (keyword : String) (page : Int) : String :=
  "https://mto.to/search?word=" ++ encodeURIComponent keyword ++ "&page=" ++ toString page

/-- The search sub-pipeline `handleMangaListSearch`: fetch the search URL,
parse the body as a full document, apply the list-item rule, and signal
the host. -/
def handleMangaListSearch (env : JsEnv) (page : Int) (keyword : String) :
    List (HostCall IGetMangaListResult) :=
  match env.httpRequest (searchUrl keyword page) with
  | .error e => [.endWithException e]
  | .ok rawStr => [.endWithResult (extractMangaList (env.parseHTML rawStr))]

/-- The text the first toast interpolates for the keyword argument: an
absent JavaScript argument prints as `undefined`. -/
def keywordText : Option String → String
  | some k => k
  | none => "undefined"

/-- JavaScript truthiness of the optional keyword: absent and empty are
falsy. -/
def keywordTruthy : Option String → Bool
  | some k => k != ""
  | none => false

/-- The main-listing URL: the base for page at most 1, with a `page` query
otherwise. -/
def listUrl (page : Int) : String :=
  if page > 1 then "https://mto.to/latest?page=" ++ toString page
  else "https://mto.to/latest"

/-- The list operation `getMangaList`: parse the page argument, delegate to
the search sub-pipeline on a truthy keyword, and otherwise fetch the
listing URL and branch parsing on the page number. -/
def getMangaList (env : JsEnv) (rawPage rawPageSize : String)
    (keyword : Option String) : List (HostCall IGetMangaListResult) :=
  let page := parseIntSafe rawPage 1
  let toast :=
    HostCall.appToast ("Request page " ++ rawPage ++ ", keyword: " ++ keywordText keyword)
  if keywordTruthy keyword then
    toast :: handleMangaListSearch env page (keyword.getD "")
  else
    toast :: .appToast (listUrl page) ::
      (match env.httpRequest (listUrl page) with
       | .error e => [.endWithException e]
       | .ok rawStr =>
           if page ≤ 1 then
             [.endWithResult (extractMangaList (env.parseHTML rawStr))]
           else
             match env.jsonDecode rawStr with
             | .error e => [.endWithException e]
             | .ok resp => [.endWithResult (extractMangaList (env.parseHTML resp.res.html))])

/-- The detail operation `getMangaData`: fetch the given URL verbatim,
parse the body as a full document and apply the detail rule. -/
def getMangaData (env : JsEnv) (dataPageUrl : String) :
    List (HostCall IGetMangaDataResult) :=
  match env.httpRequest dataPageUrl with
  | .error e => [.endWithException e]
  | .ok rawStr => [.endWithResult (extractMangaDetail (env.parseHTML rawStr))]

/-- The images operation `getChapterImageList`: fetch the chapter URL,
select the longest inline script, recover the `imgHttps` constant and map
it to chapter image records. -/
def getChapterImageList (env : JsEnv) (chapterUrl : String) :
    List (HostCall (List IRuliaChapterImage)) :=
  match env.httpRequest chapterUrl with
  | .error e => [.endWithException e]
  | .ok rawStr =>
      match extractScriptConstant (selectScript (env.parseHTML rawStr)) "imgHttps" with
      | .error e => [.endWithException e.message]
      | .ok imgHttps => [.endWithResult (chapterImagesOf imgHttps)]

/-- The image-resolve operation `getImageUrl`: the identity. -/
def getImageUrl (path : String) : String := path

/-! ### The selection the specification describes for the script heuristic

`specLastLongest` follows the words of the amended claim: the text of
greatest length, and of several texts tying for the greatest length the
last one encountered. -/

/-- The last text of greatest length in a list, the empty string for an
empty list. -/
def specLastLongest : List String → String
  | [] => ""
  | [t] => t
  | t :: ts@(_ :: _) =>
      if (specLastLongest ts).length < t.length then t else specLastLongest ts

/-- The selection loop of the source, run from any accumulator: it keeps
the accumulator only when every later text is strictly shorter than it. -/
theorem foldl_longest (ts : List String) :
    ∀ acc : String,
      ts.foldl (fun a t => if a.length ≤ t.length then t else a) acc =
        if (specLastLongest ts).length ≥ acc.length ∧ ts ≠ [] then specLastLongest ts
        else acc := by
  induction ts with
  | nil => intro acc; simp
  | cons t ts ih =>
    intro acc
    rw [List.foldl_cons, ih]
    rcases ts with _ | ⟨t2, ts2⟩
    · simp only [specLastLongest, ne_eq, List.cons_ne_nil, not_false_eq_true, and_true,
        not_true_eq_false, and_false, if_false, ge_iff_le]
    · simp only [specLastLongest, ne_eq, List.cons_ne_nil, not_false_eq_true, and_true,
        ge_iff_le]
      split_ifs <;> first | rfl | omega

/-- The selection loop of the source computes the last longest text. -/
theorem selectLongestScript_eq (ts : List String) :
    selectLongestScript ts = specLastLongest ts := by
  rcases ts with _ | ⟨t, ts⟩
  · simp [selectLongestScript, specLastLongest]
  · rw [selectLongestScript, foldl_longest]
    simp

/-- The last longest text is at least as long as every text of the list. -/
theorem specLastLongest_le (ts : List String) :
    ∀ t ∈ ts, t.length ≤ (specLastLongest ts).length := by
  induction ts with
  | nil => simp
  | cons t ts ih =>
    intro u hu
    rcases ts with _ | ⟨t2, ts2⟩
    · simp only [List.mem_singleton] at hu
      subst hu; simp [specLastLongest]
    · rcases List.mem_cons.mp hu with h | h
      · subst h
        simp only [specLastLongest]
        split_ifs with hc
        · exact le_refl _
        · exact le_of_not_lt hc
      · simp only [specLastLongest]
        split_ifs with hc
        · exact le_trans (ih u h) (le_of_lt hc)
        · exact ih u h

/-- The last longest text of a nonempty list is a member of the list. -/
theorem specLastLongest_mem : ∀ ts : List String, ts ≠ [] → specLastLongest ts ∈ ts := by
  intro ts
  induction ts with
  | nil => intro h; cases h rfl
  | cons t ts ih =>
    intro _
    rcases ts with _ | ⟨t2, ts2⟩
    · simp [specLastLongest]
    · simp only [specLastLongest]
      split_ifs
      · exact List.mem_cons_self _ _
      · exact List.mem_cons_of_mem _ (ih (by simp))

/-! ### Claim theorems -/

/-- C1: every URL field sourced from an `href` attribute (list-item `url`,
chapter `url`) is the fixed origin `https://mto.to` concatenated with a
non-empty href and the empty string for an absent or empty href, while the
`src`-sourced cover fields are passed through verbatim with the empty
string as the absent default. -/
theorem c1_absolute_url_policy :
    (∀ h : String, h ≠ "" → absUrl (some h) = "https://mto.to" ++ h) ∧
    absUrl (some "") = "" ∧ absUrl none = "" ∧
    (∀ el : Node,
      (extractListItem el).url =
        absUrl (setAttr "href" (findChain [Sel.cls "item-title"] [el])) ∧
      (extractListItem el).coverUrl =
        (setAttr "src" (findChain [Sel.cls "item-cover", Sel.tag "img"] [el])).getD "") ∧
    (∀ el : Node,
      (extractChapterRef el).url =
        absUrl (setAttr "href" (findChain [Sel.cls "chapt"] [el]))) ∧
    (∀ doc : List Node,
      (extractMangaDetail doc).coverUrl =
        (setAttr "src" (childrenSel (Sel.tag "img") (findChain [Sel.cls "attr-cover"] doc))).getD "") := by
  refine ⟨fun h hne => ?_, rfl, rfl, fun el => ⟨rfl, rfl⟩, fun el => rfl, fun doc => rfl⟩
  simp [absUrl, origin, hne]

/-- C3 counterexample: in a chapter document whose two inline scripts tie
for the greatest source-text length, the selection loop keeps the second
script, not the first encountered. -/
theorem c3_tie_counterexample :
    scriptTexts
        [Node.elem "html" []
          [Node.elem "script" [] [Node.text "ab"],
           Node.elem "script" [] [Node.text "cd"]]] = ["ab", "cd"] ∧
    selectScript
        [Node.elem "html" []
          [Node.elem "script" [] [Node.text "ab"],
           Node.elem "script" [] [Node.text "cd"]]] = "cd" ∧
    selectScript
        [Node.elem "html" []
          [Node.elem "script" [] [Node.text "ab"],
           Node.elem "script" [] [Node.text "cd"]]] ≠ "ab" := by
  refine ⟨rfl, rfl, ?_⟩
  decide

/-- C3 amended: among all inline script elements of the chapter document
the one of greatest source-text length is selected, and of two or more
scripts tying for the greatest length the last one encountered in document
order is selected. -/
theorem c3_longest_script_last_tie :
    ∀ doc : List Node,
      selectScript doc = specLastLongest (scriptTexts doc) ∧
      (∀ t ∈ scriptTexts doc, t.length ≤ (selectScript doc).length) ∧
      (scriptTexts doc ≠ [] → selectScript doc ∈ scriptTexts doc) := by
  intro doc
  rw [selectScript, selectLongestScript_eq]
  exact ⟨rfl, specLastLongest_le _, specLastLongest_mem _⟩

/-- C2: in the list operation without a keyword, a parsed page of at most 1
fetches exactly `https://mto.to/latest` and hands the raw body directly to
the HTML parser, while a parsed page above 1 fetches
`https://mto.to/latest?page=N`, decodes the raw body as the pagination
envelope and hands only the `res.html` field of the envelope to the HTML
parser, never the raw envelope text. -/
theorem c2_listing_pagination_branch :
    ∀ (env : JsEnv) (rawPage rawPageSize : String),
      (parseIntSafe rawPage 1 ≤ 1 →
        getMangaList env rawPage rawPageSize none =
          HostCall.appToast ("Request page " ++ rawPage ++ ", keyword: " ++ keywordText none) ::
          HostCall.appToast "https://mto.to/latest" ::
          (match env.httpRequest "https://mto.to/latest" with
           | .error e => [.endWithException e]
           | .ok rawStr => [.endWithResult (extractMangaList (env.parseHTML rawStr))])) ∧
      (1 < parseIntSafe rawPage 1 →
        getMangaList env rawPage rawPageSize none =
          HostCall.appToast ("Request page " ++ rawPage ++ ", keyword: " ++ keywordText none) ::
          HostCall.appToast ("https://mto.to/latest?page=" ++ toString (parseIntSafe rawPage 1)) ::
          (match env.httpRequest
              ("https://mto.to/latest?page=" ++ toString (parseIntSafe rawPage 1)) with
           | .error e => [.endWithException e]
           | .ok rawStr =>
               match env.jsonDecode rawStr with
               | .error e => [.endWithException e]
               | .ok resp =>
                   [.endWithResult (extractMangaList (env.parseHTML resp.res.html))])) := by
  intro env rawPage rawPageSize
  constructor
  · intro hle
    have h1 : ¬ (1 : Int) < parseIntSafe rawPage 1 := not_lt.mpr hle
    simp [getMangaList, keywordTruthy, keywordText, listUrl, h1, hle]
  · intro hgt
    have h1 : ¬ parseIntSafe rawPage 1 ≤ 1 := not_le.mpr hgt
    simp [getMangaList, keywordTruthy, keywordText, listUrl, h1, hgt]

/-- C4: a truthy keyword makes the list operation delegate entirely to the
search sub-pipeline, whose fetch URL carries the URL-encoded keyword and
the numeric page, whose raw body is always parsed as a full document with
no JSON-envelope branch before the list-item rule, and for which the
page-size argument is ignored. -/
theorem c4_search_delegation :
    ∀ (env : JsEnv) (rawPage rawPageSize rawPageSize2 k : String),
      (k ≠ "" →
        getMangaList env rawPage rawPageSize (some k) =
          HostCall.appToast ("Request page " ++ rawPage ++ ", keyword: " ++ k) ::
          handleMangaListSearch env (parseIntSafe rawPage 1) k) ∧
      (handleMangaListSearch env (parseIntSafe rawPage 1) k =
        match env.httpRequest
            ("https://mto.to/search?word=" ++ encodeURIComponent k ++ "&page=" ++
              toString (parseIntSafe rawPage 1)) with
        | .error e => [.endWithException e]
        | .ok rawStr => [.endWithResult (extractMangaList (env.parseHTML rawStr))]) ∧
      (getMangaList env rawPage rawPageSize (some k) =
        getMangaList env rawPage rawPageSize2 (some k)) := by
  intro env rawPage rawPageSize rawPageSize2 k
  refine ⟨fun hk => ?_, rfl, rfl⟩
  have ht : keywordTruthy (some k) = true := by simp [keywordTruthy, hk]
  simp [getMangaList, ht, keywordText]

/-- C5: a page argument that does not parse as an integer (the empty
string and inputs such as `abc` included) never raises; `parseIntSafe`
yields the default page value 1 and the operation proceeds on the
first-page path. -/
theorem c5_page_default :
    ∀ (s rawPageSize : String) (env : JsEnv),
      (jsParseInt s = none → parseIntSafe s 1 = 1) ∧
      parseIntSafe "" 1 = 1 ∧
      parseIntSafe "abc" 1 = 1 ∧
      (jsParseInt s = none →
        getMangaList env s rawPageSize none =
          HostCall.appToast ("Request page " ++ s ++ ", keyword: " ++ keywordText none) ::
          HostCall.appToast "https://mto.to/latest" ::
          (match env.httpRequest "https://mto.to/latest" with
           | .error e => [.endWithException e]
           | .ok rawStr => [.endWithResult (extractMangaList (env.parseHTML rawStr))])) := by
  intro s rawPageSize env
  refine ⟨fun h => ?_, rfl, rfl, fun h => ?_⟩
  · simp [parseIntSafe, h]
  · have hp : parseIntSafe s 1 = 1 := by simp [parseIntSafe, h]
    have h1 : ¬ (1 : Int) < parseIntSafe s 1 := by rw [hp]; omega
    have hle : parseIntSafe s 1 ≤ 1 := by rw [hp]
    simp [getMangaList, keywordTruthy, keywordText, listUrl, h1, hle]

/-- C6: the images operation maps the n URL strings recovered from the
`imgHttps` constant to exactly n chapter image records in the same order,
the i-th record carrying the i-th URL and the constant placeholder
dimensions 1 and 1. -/
theorem c6_image_mapping :
    ∀ (urls : List String) (env : JsEnv) (chapterUrl rawStr : String),
      (chapterImagesOf urls).length = urls.length ∧
      (∀ i : Nat,
        (chapterImagesOf urls)[i]? =
          (urls[i]?).map (fun u => { url := u, width := 1, height := 1 })) ∧
      chapterImagesOf ["u1", "u2"] =
        [{ url := "u1", width := 1, height := 1 },
         { url := "u2", width := 1, height := 1 }] ∧
      (env.httpRequest chapterUrl = .ok rawStr →
        extractScriptConstant (selectScript (env.parseHTML rawStr)) "imgHttps" = .ok urls →
        getChapterImageList env chapterUrl = [.endWithResult (chapterImagesOf urls)]) := by
  intro urls env chapterUrl rawStr
  refine ⟨List.length_map _ _, fun i => ?_, rfl, fun h1 h2 => ?_⟩
  · simp [chapterImagesOf]
  · simp [getChapterImageList, h1, h2]

/-- C7: a selector miss in any extraction rule yields the empty default of
the field and never an error; in particular the list-item rule applied to
a document with an empty or absent `#series-list` container yields the
empty list. -/
theorem c7_selector_miss_defaults :
    ∀ (doc : List Node) (el : Node),
      (seriesItems doc = [] → extractMangaList doc = { list := [] }) ∧
      (findChain [Sel.cls "item-title"] [el] = [] →
        findChain [Sel.cls "item-cover", Sel.tag "img"] [el] = [] →
        extractListItem el = { title := "", url := "", coverUrl := "" }) ∧
      (findChain [Sel.cls "item-title"] doc = [] → (extractMangaDetail doc).title = "") ∧
      (findChain [Sel.id "limit-height-body-summary", Sel.cls "limit-html"] doc = [] →
        (extractMangaDetail doc).description = "") ∧
      (childrenSel (Sel.tag "img") (findChain [Sel.cls "attr-cover"] doc) = [] →
        (extractMangaDetail doc).coverUrl = "") ∧
      (childrenSel (Sel.cls "item")
          (findChain [Sel.cls "episode-list", Sel.cls "main"] doc) = [] →
        (extractMangaDetail doc).chapterList = []) := by
  intro doc el
  refine ⟨fun h => ?_, fun h1 h2 => ?_, fun h => ?_, fun h => ?_, fun h => ?_, fun h => ?_⟩
  · simp [extractMangaList, h]
  · simp [extractListItem, h1, h2, setText, setAttr, absUrl]
  · simp [extractMangaDetail, h, setText]
  · simp [extractMangaDetail, h, setText]
  · simp [extractMangaDetail, h, setAttr]
  · simp [extractMangaDetail, h]

/-- C9: script-constant extraction evaluates the selected script text and
returns the value bound to `imgHttps`; an evaluated script that never
defines the name fails with `scriptConstantNotFound`, and a script text
that does not evaluate fails with `scriptEvaluationError`. -/
theorem c9_extract_script_constant :
    ∀ (scriptText name : String) (binds : List (String × List String)),
      extractScriptConstant "const imgHttps = ['a','b'];" "imgHttps" = .ok ["a", "b"] ∧
      (evalScript scriptText = some binds → binds.lookup name = none →
        extractScriptConstant scriptText name = .error .scriptConstantNotFound) ∧
      (evalScript scriptText = none →
        extractScriptConstant scriptText name = .error .scriptEvaluationError) ∧
      extractScriptConstant "const x = ['a'];" "imgHttps" =
        .error .scriptConstantNotFound := by
  intro scriptText name binds
  refine ⟨rfl, fun h1 h2 => ?_, fun h => ?_, rfl⟩
  · simp [extractScriptConstant, h1, h2]
  · simp [extractScriptConstant, h]

/-- C10: each node matched by the `#series-list` direct-child item
selector contributes exactly one summary to the result list in document
order, an item whose sub-selectors all miss still produces an all-empty
entry, and the result length always equals the number of matched item
nodes. -/
theorem c10_one_summary_per_item :
    ∀ (doc : List Node) (el : Node),
      (extractMangaList doc).list.length = (seriesItems doc).length ∧
      (∀ i : Nat,
        (extractMangaList doc).list[i]? = ((seriesItems doc)[i]?).map extractListItem) ∧
      (extractMangaList doc).list = (seriesItems doc).map extractListItem ∧
      (findChain [Sel.cls "item-title"] [el] = [] →
        findChain [Sel.cls "item-cover", Sel.tag "img"] [el] = [] →
        extractListItem el = { title := "", url := "", coverUrl := "" }) := by
  intro doc el
  refine ⟨List.length_map _ _, fun i => ?_, rfl, fun h1 h2 => ?_⟩
  · simp [extractMangaList]
  · simp [extractListItem, h1, h2, setText, setAttr, absUrl]

/-- C8: every invocation of the list, search, detail or images operation
uses exactly one of the two terminal host channels: the emitted call trace
holds exactly one `endWithResult` or `endWithException` call, never both
and never neither. -/
theorem c8_exactly_one_channel :
    ∀ (env : JsEnv) (rawPage rawPageSize dataPageUrl chapterUrl kw : String)
      (keyword : Option String) (page : Int),
      (getMangaList env rawPage rawPageSize keyword).countP HostCall.isEndCall = 1 ∧
      (handleMangaListSearch env page kw).countP HostCall.isEndCall = 1 ∧
      (getMangaData env dataPageUrl).countP HostCall.isEndCall = 1 ∧
      (getChapterImageList env chapterUrl).countP HostCall.isEndCall = 1 := by
  intro env rawPage rawPageSize dataPageUrl chapterUrl kw keyword page
  have hsearch : ∀ (p : Int) (k : String),
      (handleMangaListSearch env p k).countP HostCall.isEndCall = 1 := by
    intro p k
    unfold handleMangaListSearch
    cases env.httpRequest (searchUrl k p) <;>
      simp [List.countP_cons, HostCall.isEndCall]
  refine ⟨?_, hsearch page kw, ?_, ?_⟩
  · unfold getMangaList
    cases hkw : keywordTruthy keyword
    · simp only [hkw, if_false, Bool.false_eq_true]
      cases env.httpRequest (listUrl (parseIntSafe rawPage 1)) with
      | error e => simp [List.countP_cons, HostCall.isEndCall]
      | ok rawStr =>
          by_cases hp : parseIntSafe rawPage 1 ≤ 1
          · simp [hp, List.countP_cons, HostCall.isEndCall]
          · cases hj : env.jsonDecode rawStr <;>
              simp [hp, hj, List.countP_cons, HostCall.isEndCall]
    · simp [hkw, List.countP_cons, HostCall.isEndCall, hsearch]
  · unfold getMangaData
    cases env.httpRequest dataPageUrl <;>
      simp [List.countP_cons, HostCall.isEndCall]
  · unfold getChapterImageList
    cases env.httpRequest chapterUrl with
    | error e => simp [List.countP_cons, HostCall.isEndCall]
    | ok rawStr =>
        cases hx : extractScriptConstant (selectScript (env.parseHTML rawStr)) "imgHttps" <;>
          simp [hx, List.countP_cons, HostCall.isEndCall]

/-! ### Concrete inputs for the witnesses -/

/-- A concrete document with a `#series-list` of two items, the second of
which has no title, href or cover. -/
def demoListDoc : List Node :=
  [Node.elem "html" []
    [Node.elem "div" [("id", "series-list")]
      [Node.elem "div" [("class", "item")]
        [Node.elem "a" [("class", "item-title"), ("href", "/series/1")] [Node.text "T1"],
         Node.elem "div" [("class", "item-cover")]
           [Node.elem "img" [("src", "https://i/1.png")] []]],
       Node.elem "div" [("class", "item")] []]]]

/-- A concrete chapter document whose longest inline script defines
`imgHttps`. -/
def demoChapterDoc : List Node :=
  [Node.elem "html" []
    [Node.elem "script" [] [Node.text "const x = ['p'];"],
     Node.elem "script" [] [Node.text "const imgHttps = ['u','v'];"]]]

/-- A concrete environment: every fetch yields a fixed raw body, parsing
yields the list document, and envelope decoding succeeds with partial
HTML. -/
def demoEnv : JsEnv where
  httpRequest := fun _ => .ok "raw"
  parseHTML := fun _ => demoListDoc
  jsonDecode := fun _ =>
    .ok { eno := 0, err := none, res := { html := "<div>", more := true } }

/-- A concrete environment whose parsed document is the chapter document. -/
def demoChapterEnv : JsEnv where
  httpRequest := fun _ => .ok "raw"
  parseHTML := fun _ => demoChapterDoc
  jsonDecode := fun _ => .error "not json"

/-! ### Witnesses -/

/-- C1 witness: the rewrite at the concrete href `/series/1`. -/
theorem c1_rewrite_witness :
    absUrl (some "/series/1") = "https://mto.to/series/1" :=
  (c1_absolute_url_policy.1 "/series/1" (by decide)).trans (by decide)

/-- C2 witness: page 2 in the concrete environment fetches the paged URL,
decodes the envelope and emits the extraction of the parsed partial
HTML. -/
theorem c2_pagination_witness :
    getMangaList demoEnv "2" "20" none =
      [HostCall.appToast "Request page 2, keyword: undefined",
       HostCall.appToast "https://mto.to/latest?page=2",
       HostCall.endWithResult (extractMangaList demoListDoc)] := by
  have h := (c2_listing_pagination_branch demoEnv "2" "20").2 (by decide)
  rw [h]; decide

/-- C3 witness: in the concrete chapter document the selected script is a
member of the script texts, the one defining `imgHttps`. -/
theorem c3_member_witness :
    selectScript demoChapterDoc ∈ scriptTexts demoChapterDoc ∧
    selectScript demoChapterDoc = "const imgHttps = ['u','v'];" :=
  ⟨(c3_longest_script_last_tie demoChapterDoc).2.2 (by decide), by decide⟩

/-- C4 witness: a concrete keyword delegates to the search sub-pipeline
and emits the extraction of the parsed search page. -/
theorem c4_search_witness :
    getMangaList demoEnv "1" "20" (some "naru to") =
      [HostCall.appToast "Request page 1, keyword: naru to",
       HostCall.endWithResult (extractMangaList demoListDoc)] := by
  have h := (c4_search_delegation demoEnv "1" "20" "20" "naru to").1 (by decide)
  rw [h]; decide

/-- C5 witness: the non-numeric page argument `abc` takes the first-page
path with the unpaged listing URL and no exception. -/
theorem c5_default_witness :
    getMangaList demoEnv "abc" "20" none =
      [HostCall.appToast "Request page abc, keyword: undefined",
       HostCall.appToast "https://mto.to/latest",
       HostCall.endWithResult (extractMangaList demoListDoc)] := by
  have h := (c5_page_default "abc" "20" demoEnv).2.2.2 (by decide)
  rw [h]; decide

/-- C6 witness: the chapter operation on the concrete chapter document
emits the two-image mapping of the recovered URLs. -/
theorem c6_images_witness :
    getChapterImageList demoChapterEnv "https://mto.to/chapter/1" =
      [HostCall.endWithResult (chapterImagesOf ["u", "v"])] :=
  (c6_image_mapping ["u", "v"] demoChapterEnv "https://mto.to/chapter/1" "raw").2.2.2
    rfl rfl

/-- C7 witness: the list-item rule on the empty document and the item rule
on an item with no matching sub-nodes give the empty defaults. -/
theorem c7_miss_witness :
    extractMangaList [] = { list := [] } ∧
    extractListItem (Node.elem "div" [] []) = { title := "", url := "", coverUrl := "" } :=
  ⟨(c7_selector_miss_defaults [] (Node.elem "div" [] [])).1 rfl,
   (c7_selector_miss_defaults [] (Node.elem "div" [] [])).2.1 rfl rfl⟩

/-- C8 witness: one concrete list invocation uses a terminal channel
exactly once. -/
theorem c8_once_witness :
    (getMangaList demoEnv "1" "20" none).countP HostCall.isEndCall = 1 :=
  (c8_exactly_one_channel demoEnv "1" "20" "u" "c" "k" none 1).1

/-- C9 witness: a script that defines only `x` fails the `imgHttps` lookup
with the constant-not-found error. -/
theorem c9_notfound_witness :
    extractScriptConstant "const x = ['a'];" "imgHttps" =
      .error .scriptConstantNotFound :=
  (c9_extract_script_constant "const x = ['a'];" "imgHttps" [("x", ["a"])]).2.1 rfl rfl

/-- C10 witness: the concrete two-item document yields exactly two
summaries, one per matched item. -/
theorem c10_length_witness :
    (extractMangaList demoListDoc).list.length = (seriesItems demoListDoc).length ∧
    (extractMangaList demoListDoc).list.length = 2 :=
  ⟨(c10_one_summary_per_item demoListDoc (Node.text "")).1, by decide⟩

end Bato


